import Mathlib

/-!
Verification development for the flowcms (GitFlow-CMS) repository.

The frontend Safe Push / Magic Paste logic is embedded from
`frontend/src/components/SmartEditor.tsx` and the HTTP client from
`frontend/src/lib/api.ts`.  The backend Structural Smart-Replace Engine
(Construct Locator / Replacement Planner / Patch Applier) is not part of
the visible sources; those components are modelled from the design
document (sections 3, 4.3 and 4.4) and are marked as such.
-/

namespace FlowCMS

/-- Result of calling a backend API method from the frontend: either the
decoded JSON value, or a thrown error carrying the `Error.message` string
that the caller's `catch` block observes. -/
inductive ApiOutcome (α : Type) where
  | ok (val : α)
  | err (message : String)

/-- One alert of the secret scanner, mirroring `SecretAlert` in `api.ts`. -/
structure SecretAlert where
  type : String
  severity : String
  line : Nat
  message : String
  preview : String
deriving DecidableEq

/-- Mirrors `ScanResponse` in `api.ts`. -/
structure ScanResponse where
  is_safe : Bool
  secrets_found : Nat
  alerts : List SecretAlert
deriving DecidableEq

/-- Mirrors `SyntaxValidateResponse` in `api.ts`. -/
structure SyntaxValidateResponse where
  is_valid : Bool
  error_message : Option String
  error_line : Option Nat
  error_column : Option Nat
deriving DecidableEq

/-- Mirrors `CommitResponse` in `api.ts`; `none` models an absent field. -/
structure CommitResponse where
  success : Bool
  commit_sha : Option String
  file_sha : Option String
  message : String
deriving DecidableEq

/-- Mirrors the `diff_info` payload of `SmartReplaceResponse` in `api.ts`. -/
structure DiffInfo where
  original_start : Nat
  original_end : Nat
  original_source : String
deriving DecidableEq

/-- Mirrors `SmartReplaceResponse` in `api.ts`. -/
structure SmartReplaceResponse where
  success : Bool
  updated_content : String
  operation : String
  target_name : Option String
  message : String
  diff_info : Option DiffInfo
deriving DecidableEq

/-- The React state of `SmartEditor` that the handlers under scrutiny read
or write: `content`, `originalContent`, `sha`, `hasUnsavedChanges`, the
localStorage backup slot for this file, `isSaving`, and the Magic Paste
dialog state. -/
structure EditorState where
  content : String
  originalContent : String
  sha : String
  hasUnsavedChanges : Bool
  backup : Option String
  isSaving : Bool
  magicPasteCode : String
  magicPasteResult : Option SmartReplaceResponse
  showMagicPaste : Bool
  isProcessingMagic : Bool
deriving DecidableEq

/-- A backend call issued by a handler, with the arguments the claims care
about.  `commitFile` records the `content` and `expected_sha` fields of the
commit request; `smartReplace` records `full_file_content` and
`new_snippet`. -/
inductive ApiCall where
  | scanSecrets (content : String)
  | validateSyntax (content : String)
  | commitFile (content : String) (expected_sha : String)
  | smartReplace (full_file_content : String) (new_snippet : String)
deriving DecidableEq

/-- The user-visible outcome of one Safe Push attempt, one constructor per
distinct toast branch of `handleSafePush`. -/
inductive PushOutcome where
  | committed (commit_sha : Option String)
  | rejectedSecrets (count : Nat)
  | rejectedSyntax (line : Option Nat) (msg : Option String)
  | conflict (message : String)
  | failed (message : String)
  | silentNoSuccess
deriving DecidableEq

/-- The user-visible outcome of one Magic Paste request. -/
inductive MagicOutcome where
  | emptyError
  | gotResult (r : SmartReplaceResponse)
  | failed (message : String)
deriving DecidableEq

/-- JavaScript `a || b` on an optional string: an absent or empty string is
falsy and yields `b`. -/
def jsOr (a : Option String) (b : String) : String :=
  match a with
  | some s => if s = "" then b else s
  | none => b

/-- Boolean test that `needle` occurs at the head of `text`. -/
def leads : List Char → List Char → Bool
  | [], _ => true
  | _ :: _, [] => false
  | a :: as, b :: bs => a == b && leads as bs

/-- Boolean substring test, modelling JavaScript `text.includes(needle)`. -/
def containsSub (needle : List Char) : List Char → Bool
  | [] => leads needle []
  | c :: rest => leads needle (c :: rest) || containsSub needle rest

/-- The test `message.includes("Conflict") || message.includes("409")` in
the `catch` block of `handleSafePush`. -/
def hasConflictMarker (m : String) : Bool :=
  containsSub "Conflict".data m.data || containsSub "409".data m.data

/-- The `catch` block of `handleSafePush`: a thrown error message is turned
into either the merge-conflict toast or the generic push-failed toast. -/
def classifyError (m : String) : PushOutcome :=
  if hasConflictMarker m then PushOutcome.conflict m else PushOutcome.failed m

/-- Responses the three backend endpoints would give during one Safe Push
attempt; a call that is never issued never observes its entry. -/
structure PushEnv where
  scan : ApiOutcome ScanResponse
  validate : ApiOutcome SyntaxValidateResponse
  commit : ApiOutcome CommitResponse

/-- Embedding of `handleSafePush` in `SmartEditor.tsx` (lines 134-205):
scan for secrets, then validate syntax, then commit with optimistic
locking, returning early on the first failure.  The returned triple is the
final component state, the toast outcome, and the ordered list of backend
calls issued.  `isSaving` is set at entry and cleared in `finally`, so the
final state always has `isSaving = false`. -/
def handleSafePush (st : EditorState) (env : PushEnv) :
    EditorState × PushOutcome × List ApiCall :=
  match env.scan with
  | ApiOutcome.err m =>
      ({ st with isSaving := false }, classifyError m,
        [ApiCall.scanSecrets st.content])
  | ApiOutcome.ok scanResult =>
      if scanResult.is_safe = false then
        ({ st with isSaving := false },
          PushOutcome.rejectedSecrets scanResult.secrets_found,
          [ApiCall.scanSecrets st.content])
      else
        match env.validate with
        | ApiOutcome.err m =>
            ({ st with isSaving := false }, classifyError m,
              [ApiCall.scanSecrets st.content, ApiCall.validateSyntax st.content])
        | ApiOutcome.ok syntaxResult =>
            if syntaxResult.is_valid = false then
              ({ st with isSaving := false },
                PushOutcome.rejectedSyntax syntaxResult.error_line
                  syntaxResult.error_message,
                [ApiCall.scanSecrets st.content, ApiCall.validateSyntax st.content])
            else
              match env.commit with
              | ApiOutcome.err m =>
                  ({ st with isSaving := false }, classifyError m,
                    [ApiCall.scanSecrets st.content,
                      ApiCall.validateSyntax st.content,
                      ApiCall.commitFile st.content st.sha])
              | ApiOutcome.ok commitResult =>
                  if commitResult.success = true then
                    ({ st with
                        sha := jsOr commitResult.file_sha st.sha,
                        originalContent := st.content,
                        hasUnsavedChanges := false,
                        backup := none,
                        isSaving := false },
                      PushOutcome.committed commitResult.commit_sha,
                      [ApiCall.scanSecrets st.content,
                        ApiCall.validateSyntax st.content,
                        ApiCall.commitFile st.content st.sha])
                  else
                    ({ st with isSaving := false }, PushOutcome.silentNoSuccess,
                      [ApiCall.scanSecrets st.content,
                        ApiCall.validateSyntax st.content,
                        ApiCall.commitFile st.content st.sha])

/-- JavaScript `String.prototype.trim`: strip leading and trailing
whitespace characters. -/
def jsTrim (s : String) : String :=
  String.mk (((s.data.dropWhile Char.isWhitespace).reverse.dropWhile
    Char.isWhitespace).reverse)

/-- Embedding of `handleMagicPaste` in `SmartEditor.tsx` (lines 208-233):
a blank snippet is reported as an error before any request is made;
otherwise `smartReplace` is called and its result (or thrown error) is
recorded.  `isProcessingMagic` is set then cleared in `finally`. -/
def handleMagicPaste (st : EditorState)
    (env : ApiOutcome SmartReplaceResponse) :
    EditorState × MagicOutcome × List ApiCall :=
  if jsTrim st.magicPasteCode = "" then
    (st, MagicOutcome.emptyError, [])
  else
    match env with
    | ApiOutcome.ok r =>
        ({ st with magicPasteResult := some r, isProcessingMagic := false },
          MagicOutcome.gotResult r,
          [ApiCall.smartReplace st.content st.magicPasteCode])
    | ApiOutcome.err m =>
        ({ st with isProcessingMagic := false }, MagicOutcome.failed m,
          [ApiCall.smartReplace st.content st.magicPasteCode])

/-- Embedding of `acceptMagicPaste` in `SmartEditor.tsx` (lines 236-245). -/
def acceptMagicPaste (st : EditorState) : EditorState :=
  match st.magicPasteResult with
  | some r =>
      { st with
          content := r.updated_content,
          hasUnsavedChanges := true,
          showMagicPaste := false,
          magicPasteCode := "",
          magicPasteResult := none }
  | none => st

/-- Embedding of `rejectMagicPaste` in `SmartEditor.tsx` (lines 248-250). -/
def rejectMagicPaste (st : EditorState) : EditorState :=
  { st with magicPasteResult := none }

/-- The shape of an HTTP response as `ApiClient.request` in `api.ts` sees
it: the `ok` flag and status code, the decoded success body, and the
`detail` / `error` fields of the decoded error body. -/
structure HttpResponse (α : Type) where
  ok : Bool
  status : Nat
  body : α
  errDetail : Option String
  errError : Option String

/-- How a call to `ApiClient.request` terminates: a returned value, or a
thrown `ApiError` carrying the HTTP status and a message. -/
inductive RequestResult (α : Type) where
  | returned (val : α)
  | thrown (status : Nat) (message : String)
deriving DecidableEq

/-- True precisely when a request terminated by returning a value. -/
def RequestResult.isReturned {α : Type} : RequestResult α → Bool
  | RequestResult.returned _ => true
  | RequestResult.thrown _ _ => false

/-- Embedding of `ApiClient.request` in `api.ts` (lines 18-39): a
non-`ok` response makes it throw `ApiError(status, detail || error ||
"Request failed")`; an `ok` response returns the decoded body. -/
def request {α : Type} (resp : HttpResponse α) : RequestResult α :=
  if resp.ok then RequestResult.returned resp.body
  else RequestResult.thrown resp.status
    (jsOr resp.errDetail (jsOr resp.errError "Request failed"))

/-- Modelled from the spec: the kind of a top-level construct (section 3);
the backend Construct Locator sources are not in the repository. -/
inductive ConstructKind where
  | Function
  | Method
  | Class
deriving DecidableEq

/-- Modelled from the spec: a half-open span over the original text
(section 3, `SourceSpan`). -/
structure SourceSpan where
  start_offset : Nat
  end_offset : Nat
  start_line : Nat
  end_line : Nat
deriving DecidableEq

/-- Modelled from the spec: a located top-level construct (section 3,
`Construct`); `leadIndent` is the leading indentation of the definition's
first line, called the indent field of the construct in the design. -/
structure Construct where
  name : List Char
  kind : ConstructKind
  span : SourceSpan
  leadIndent : List Char
deriving DecidableEq

/-- Modelled from the spec: a classified pasted fragment (section 3,
`Fragment`). -/
structure Fragment where
  raw_text : List Char
  declared_name : Option (List Char)
  kind : Option ConstructKind
deriving DecidableEq

/-- Modelled from the spec: the two plan operations (section 3). -/
inductive PlanOp where
  | Replace
  | Append
deriving DecidableEq

/-- Modelled from the spec: a replacement plan (section 3,
`ReplacementPlan`); an Append plan has `target_span = none`. -/
structure ReplacementPlan where
  operation : PlanOp
  target_span : Option SourceSpan
  target_name : Option (List Char)
deriving DecidableEq

/-- Modelled from the spec: the Patch Applier result (section 3,
`Patch Result`). -/
structure PatchResult where
  updated_content : List Char
  operation : PlanOp
  target_name : Option (List Char)
  original_excerpt : Option (List Char)
deriving DecidableEq

/-- The slice of `l` on the half-open offset range from `s` to `e`. -/
def sliceAt (l : List Char) (s e : Nat) : List Char :=
  (l.drop s).take (e - s)

/-- Modelled from the spec (section 4.3, step 2): a construct matches the
fragment when both the name and the kind agree; a fragment with no
declared name matches nothing. -/
def fragMatches (frag : Fragment) (c : Construct) : Bool :=
  match frag.declared_name with
  | none => false
  | some n => decide (c.name = n ∧ frag.kind = some c.kind)

/-- Modelled from the spec: the Replacement Planner decision rule
(section 4.3): no declared name or no match gives Append; otherwise
Replace targeting the last matching occurrence. -/
def plan (cs : List Construct) (frag : Fragment) : ReplacementPlan :=
  match frag.declared_name with
  | none => ⟨PlanOp.Append, none, none⟩
  | some _ =>
      match (cs.filter (fragMatches frag)).getLast? with
      | none => ⟨PlanOp.Append, none, none⟩
      | some t => ⟨PlanOp.Replace, some t.span, some t.name⟩

/-- Strip leading and trailing whitespace from a character list. -/
def trimChars (l : List Char) : List Char :=
  ((l.dropWhile Char.isWhitespace).reverse.dropWhile Char.isWhitespace).reverse

/-- Modelled from the spec (section 4.4): re-indentation of a fragment so
its first line's indentation equals the target's leading indentation,
preserving relative indentation among the fragment's lines; blank lines
are left alone. -/
def reindent ( indentChars : List Char) (frag : List Char) : List Char :=
  let t := trimChars frag
  let ls := t.splitOn '\n'
  let base :=
    match ls with
    | [] => 0
    | l0 :: _ => (l0.takeWhile (fun c => c == ' ' || c == '\t')).length
  List.intercalate ['\n']
    (ls.map (fun line =>
      if line.all Char.isWhitespace then line
      else indentChars ++ line.drop base))

/-- Modelled from the spec: the Patch Applier (section 4.4).  A Replace
plan substitutes the re-indented fragment for the target span, keeping
everything before `start_offset` and from `end_offset` on; any other plan
appends after the last byte with exactly one separating newline (the
spec names this operation `apply`).  The
target construct's leading indentation is passed alongside the plan, since
the `ReplacementPlan` of section 3 does not carry it. -/
def applyPatch (original : List Char) (p : ReplacementPlan)
    (frag : List Char) ( indentChars : List Char) : PatchResult :=
  match p.operation, p.target_span with
  | PlanOp.Replace, some sp =>
      { updated_content :=
          original.take sp.start_offset ++ reindent indentChars frag ++
            original.drop sp.end_offset,
        operation := PlanOp.Replace,
        target_name := p.target_name,
        original_excerpt := some (sliceAt original sp.start_offset sp.end_offset) }
  | _, _ =>
      { updated_content :=
          original ++ (if original.getLast? = some '\n' then [] else ['\n']) ++
            ['\n'] ++ frag,
        operation := PlanOp.Append,
        target_name := p.target_name,
        original_excerpt := none }

/-- A rejection outcome actionable by the user: secret found, syntax
invalid, or fingerprint-mismatch conflict. -/
def isRejection : PushOutcome → Prop
  | PushOutcome.rejectedSecrets _ => True
  | PushOutcome.rejectedSyntax _ _ => True
  | PushOutcome.conflict _ => True
  | _ => False

/-- Sample editor state used to instantiate theorems on concrete input. -/
def exSt : EditorState :=
  { content := "x = 1\n", originalContent := "x = 1\n", sha := "abc",
    hasUnsavedChanges := true, backup := some "x = 2\n", isSaving := false,
    magicPasteCode := "def f():\n    pass", magicPasteResult := none,
    showMagicPaste := true, isProcessingMagic := false }

/-- Sample scan response with no findings. -/
def safeScan : ScanResponse := { is_safe := true, secrets_found := 0, alerts := [] }

/-- Sample scan response with two findings. -/
def unsafeScan : ScanResponse :=
  { is_safe := false, secrets_found := 2,
    alerts := [{ type := "aws_key", severity := "high", line := 3,
                 message := "AWS key detected", preview := "AKIA" }] }

/-- Sample passing syntax validation. -/
def validSyn : SyntaxValidateResponse :=
  { is_valid := true, error_message := none, error_line := none, error_column := none }

/-- Sample failing syntax validation. -/
def invalidSyn : SyntaxValidateResponse :=
  { is_valid := false, error_message := some "unexpected token",
    error_line := some 2, error_column := some 5 }

/-- Sample accepted commit carrying a fresh fingerprint. -/
def okCommit : CommitResponse :=
  { success := true, commit_sha := some "deadbeefcafe", file_sha := some "newsha",
    message := "committed" }

/-- Environment in which all three Safe Push steps succeed. -/
def envAllOk : PushEnv :=
  { scan := ApiOutcome.ok safeScan, validate := ApiOutcome.ok validSyn,
    commit := ApiOutcome.ok okCommit }

/-- Environment whose secret scan reports unsafe content. -/
def envUnsafe : PushEnv :=
  { scan := ApiOutcome.ok unsafeScan, validate := ApiOutcome.ok validSyn,
    commit := ApiOutcome.ok okCommit }

/-- Sample Magic Paste response from the backend. -/
def exReplaceResp : SmartReplaceResponse :=
  { success := true, updated_content := "x = 1\n\n# just a comment",
    operation := "appended", target_name := none,
    message := "Appended to end of file", diff_info := none }

/-- Sample editor state holding a pending Magic Paste result. -/
def exStWithResult : EditorState := { exSt with magicPasteResult := some exReplaceResp }

/-- Sample editor state whose pasted snippet is blank. -/
def exStBlank : EditorState := { exSt with magicPasteCode := " \n\t  " }

/-- Sample HTTP response for a commit rejected with a fingerprint
mismatch (HTTP 409). -/
def conflictResp : HttpResponse CommitResponse :=
  { ok := false, status := 409,
    body := { success := false, commit_sha := none, file_sha := none, message := "" },
    errDetail := some "Conflict: expected_sha does not match", errError := none }

/-- Sample HTTP response for a backend failure with an empty error body. -/
def serverErrResp : HttpResponse CommitResponse :=
  { ok := false, status := 500,
    body := { success := false, commit_sha := none, file_sha := none, message := "" },
    errDetail := none, errError := none }

/-- Sample original text for the Patch Applier theorems. -/
def exOriginal : List Char := ['a', 'b', 'c', 'd', 'e', 'f', 'g', 'h']

/-- Sample replacement fragment text. -/
def exFragC3 : List Char := ['X', 'Y']

/-- Sample Replace plan over `exOriginal`. -/
def exPlanC3 : ReplacementPlan :=
  { operation := PlanOp.Replace, target_span := some ⟨2, 5, 1, 1⟩,
    target_name := some ['f'] }

/-- First of two same-named sample constructs. -/
def exC1 : Construct :=
  { name := ['f'], kind := ConstructKind.Function, span := ⟨0, 5, 1, 1⟩,
    leadIndent := [] }

/-- Second (later) of two same-named sample constructs. -/
def exC2 : Construct :=
  { name := ['f'], kind := ConstructKind.Function, span := ⟨10, 15, 2, 2⟩,
    leadIndent := [] }

/-- A located-construct list with a duplicated name. -/
def exCs : List Construct := [exC1, exC2]

/-- A fragment declaring the duplicated name. -/
def exFragC4 : Fragment :=
  { raw_text := ['X'], declared_name := some ['f'],
    kind := some ConstructKind.Function }

/-- Sample original text long enough for both sample spans. -/
def exOriginalC4 : List Char := "0123456789abcdef".data

/-! ## Theorems -/

/-- C1: if the secret scan reports `is_safe = false`, the push is blocked:
the only backend call of the attempt is the scan itself (no syntax
validation, no commit), the outcome is the secrets rejection, and the
result depends only on the `is_safe` flag — the count and alerts of the
scan response and the rest of the environment are arbitrary. -/
theorem safePush_blocks_when_scan_unsafe (st : EditorState) (env : PushEnv)
    (r : ScanResponse) (hs : env.scan = ApiOutcome.ok r)
    (hflag : r.is_safe = false) :
    handleSafePush st env =
      ({ st with isSaving := false },
        PushOutcome.rejectedSecrets r.secrets_found,
        [ApiCall.scanSecrets st.content]) := by
  simp [handleSafePush, hs, hflag]

/-- Witness for C1 on a concrete unsafe scan. -/
theorem safePush_blocks_when_scan_unsafe_witness :
    handleSafePush exSt envUnsafe =
      ({ exSt with isSaving := false }, PushOutcome.rejectedSecrets 2,
        [ApiCall.scanSecrets "x = 1\n"]) :=
  safePush_blocks_when_scan_unsafe exSt envUnsafe unsafeScan rfl rfl

/-- C2: every Safe Push attempt issues its backend calls in the fixed
order scan, validate, commit, stopping at the first failure — the call
trace is always a prefix of that sequence — and whenever syntax validation
reports `is_valid = false`, the commit call is absent from the trace. -/
theorem safePush_step_order (st : EditorState) (env : PushEnv) :
    ((handleSafePush st env).2.2 = [ApiCall.scanSecrets st.content]
      ∨ (handleSafePush st env).2.2 =
          [ApiCall.scanSecrets st.content, ApiCall.validateSyntax st.content]
      ∨ (handleSafePush st env).2.2 =
          [ApiCall.scanSecrets st.content, ApiCall.validateSyntax st.content,
            ApiCall.commitFile st.content st.sha])
    ∧ (∀ r, env.validate = ApiOutcome.ok r → r.is_valid = false →
        (handleSafePush st env).2.2 = [ApiCall.scanSecrets st.content]
        ∨ (handleSafePush st env).2.2 =
            [ApiCall.scanSecrets st.content, ApiCall.validateSyntax st.content]) := by
  obtain ⟨sc, va, co⟩ := env
  constructor
  · cases sc with
    | err m => simp [handleSafePush]
    | ok rs =>
      cases hsafe : rs.is_safe with
      | false => simp [handleSafePush, hsafe]
      | true =>
        cases va with
        | err m => simp [handleSafePush, hsafe]
        | ok rv =>
          cases hvalid : rv.is_valid with
          | false => simp [handleSafePush, hsafe, hvalid]
          | true =>
            cases co with
            | err m => simp [handleSafePush, hsafe, hvalid]
            | ok rc =>
              cases hsucc : rc.success with
              | false => simp [handleSafePush, hsafe, hvalid, hsucc]
              | true => simp [handleSafePush, hsafe, hvalid, hsucc]
  · intro r hva hinv
    simp only [] at hva
    subst hva
    cases sc with
    | err m => left; simp [handleSafePush]
    | ok rs =>
      cases hsafe : rs.is_safe with
      | false => left; simp [handleSafePush, hsafe]
      | true => right; simp [handleSafePush, hsafe, hinv]

/-- Witness for C2: with a passing scan and a failing validation the trace
stops before the commit call. -/
theorem safePush_step_order_witness :
    (handleSafePush exSt
        { scan := ApiOutcome.ok safeScan, validate := ApiOutcome.ok invalidSyn,
          commit := ApiOutcome.ok okCommit }).2.2 =
        [ApiCall.scanSecrets "x = 1\n"]
    ∨ (handleSafePush exSt
        { scan := ApiOutcome.ok safeScan, validate := ApiOutcome.ok invalidSyn,
          commit := ApiOutcome.ok okCommit }).2.2 =
        [ApiCall.scanSecrets "x = 1\n", ApiCall.validateSyntax "x = 1\n"] :=
  (safePush_step_order exSt
    { scan := ApiOutcome.ok safeScan, validate := ApiOutcome.ok invalidSyn,
      commit := ApiOutcome.ok okCommit }).2 invalidSyn rfl rfl

/-- C5: a commit rejected by the backend with a fingerprint-mismatch
message (containing "Conflict" or "409", as the backend surfaces an HTTP
409) yields the dedicated conflict outcome, which is a different
constructor from every syntax-validation rejection, so the caller can
offer reload-and-retry rather than fix-your-code. -/
theorem conflict_surfaced_distinctly (st : EditorState) (env : PushEnv)
    (rs : ScanResponse) (rv : SyntaxValidateResponse) (m : String)
    (hs : env.scan = ApiOutcome.ok rs) (hsafe : rs.is_safe = true)
    (hv : env.validate = ApiOutcome.ok rv) (hvalid : rv.is_valid = true)
    (hc : env.commit = ApiOutcome.err m) (hm : hasConflictMarker m = true) :
    (handleSafePush st env).2.1 = PushOutcome.conflict m
    ∧ ∀ l em, PushOutcome.conflict m ≠ PushOutcome.rejectedSyntax l em := by
  constructor
  · simp [handleSafePush, hs, hsafe, hv, hvalid, hc, classifyError, hm]
  · intro l em hcontra
    cases hcontra

/-- Witness for C5 on a concrete conflict message. -/
theorem conflict_surfaced_distinctly_witness :
    (handleSafePush exSt
        { scan := ApiOutcome.ok safeScan, validate := ApiOutcome.ok validSyn,
          commit := ApiOutcome.err "Conflict: file changed on server" }).2.1 =
      PushOutcome.conflict "Conflict: file changed on server"
    ∧ PushOutcome.conflict "Conflict: file changed on server" ≠
        PushOutcome.rejectedSyntax (some 1) (some "bad token") := by
  have h := conflict_surfaced_distinctly exSt
    { scan := ApiOutcome.ok safeScan, validate := ApiOutcome.ok validSyn,
      commit := ApiOutcome.err "Conflict: file changed on server" }
    safeScan validSyn "Conflict: file changed on server"
    rfl rfl rfl rfl rfl (by decide)
  exact ⟨h.1, h.2 (some 1) (some "bad token")⟩

/-- Every commit call issued by a Safe Push attempt carries the state's
current `sha` as `expected_sha` and the current editor content. -/
theorem commitCall_uses_current_sha (st : EditorState) (env : PushEnv)
    (c es : String)
    (h : ApiCall.commitFile c es ∈ (handleSafePush st env).2.2) :
    es = st.sha ∧ c = st.content := by
  obtain ⟨sc, va, co⟩ := env
  cases sc with
  | err m => simp [handleSafePush] at h
  | ok rs =>
    cases hsafe : rs.is_safe with
    | false => simp [handleSafePush, hsafe] at h
    | true =>
      cases va with
      | err m => simp [handleSafePush, hsafe] at h
      | ok rv =>
        cases hvalid : rv.is_valid with
        | false => simp [handleSafePush, hsafe, hvalid] at h
        | true =>
          cases co with
          | err m =>
            simp [handleSafePush, hsafe, hvalid] at h
            exact ⟨h.2, h.1⟩
          | ok rc =>
            cases hsucc : rc.success with
            | false =>
              simp [handleSafePush, hsafe, hvalid, hsucc] at h
              exact ⟨h.2, h.1⟩
            | true =>
              simp [handleSafePush, hsafe, hvalid, hsucc] at h
              exact ⟨h.2, h.1⟩

/-- C6: when the backend accepts the commit and returns a new fingerprint
`f`, the caller stores `f` in its `sha` state, and any commit call of a
subsequent Safe Push attempt from that state uses `f` as
`expected_sha`. -/
theorem commit_success_stores_new_fingerprint (st : EditorState)
    (env : PushEnv) (rs : ScanResponse) (rv : SyntaxValidateResponse)
    (rc : CommitResponse) (f : String)
    (hs : env.scan = ApiOutcome.ok rs) (hsafe : rs.is_safe = true)
    (hv : env.validate = ApiOutcome.ok rv) (hvalid : rv.is_valid = true)
    (hc : env.commit = ApiOutcome.ok rc) (hsucc : rc.success = true)
    (hf : rc.file_sha = some f) (hne : f ≠ "") :
    (handleSafePush st env).1.sha = f
    ∧ ∀ env' c es,
        ApiCall.commitFile c es ∈ (handleSafePush (handleSafePush st env).1 env').2.2 →
        es = f := by
  have h1 : (handleSafePush st env).1.sha = f := by
    simp [handleSafePush, hs, hsafe, hv, hvalid, hc, hsucc, hf, jsOr, hne]
  refine ⟨h1, ?_⟩
  intro env' c es hmem
  have h2 := (commitCall_uses_current_sha _ _ _ _ hmem).1
  rw [h2, h1]

/-- Witness for C6: after a fully successful push the stored fingerprint
is the backend's fresh one. -/
theorem commit_success_stores_new_fingerprint_witness :
    (handleSafePush exSt envAllOk).1.sha = "newsha" :=
  (commit_success_stores_new_fingerprint exSt envAllOk safeScan validSyn
    okCommit "newsha" rfl rfl rfl rfl rfl rfl rfl (by decide)).1

/-- C7: a Safe Push attempt that ends in a user-actionable rejection
(secret found, syntax invalid, or conflict) leaves the stored fingerprint,
the last-loaded original content, the unsaved-changes flag and the local
backup exactly as they were. -/
theorem rejection_preserves_stored_state (st : EditorState) (env : PushEnv)
    (h : isRejection (handleSafePush st env).2.1) :
    (handleSafePush st env).1.sha = st.sha
    ∧ (handleSafePush st env).1.originalContent = st.originalContent
    ∧ (handleSafePush st env).1.hasUnsavedChanges = st.hasUnsavedChanges
    ∧ (handleSafePush st env).1.backup = st.backup := by
  obtain ⟨sc, va, co⟩ := env
  cases sc with
  | err m => exact ⟨rfl, rfl, rfl, rfl⟩
  | ok rs =>
    cases hsafe : rs.is_safe with
    | false => simp [handleSafePush, hsafe]
    | true =>
      cases va with
      | err m => simp [handleSafePush, hsafe]
      | ok rv =>
        cases hvalid : rv.is_valid with
        | false => simp [handleSafePush, hsafe, hvalid]
        | true =>
          cases co with
          | err m => simp [handleSafePush, hsafe, hvalid]
          | ok rc =>
            cases hsucc : rc.success with
            | false => simp [handleSafePush, hsafe, hvalid, hsucc]
            | true =>
              exfalso
              simp [handleSafePush, hsafe, hvalid, hsucc, isRejection] at h

/-- Witness for C7: a secrets rejection leaves the sample state's stored
fields untouched. -/
theorem rejection_preserves_stored_state_witness :
    (handleSafePush exSt envUnsafe).1.sha = "abc"
    ∧ (handleSafePush exSt envUnsafe).1.originalContent = "x = 1\n"
    ∧ (handleSafePush exSt envUnsafe).1.hasUnsavedChanges = true
    ∧ (handleSafePush exSt envUnsafe).1.backup = some "x = 2\n" :=
  rejection_preserves_stored_state exSt envUnsafe trivial

/-- C8 counterexample: on the fingerprint-mismatch response (HTTP 409,
`ok = false`) the client's `request` does not return a typed result value
to the caller — it throws, as the `ApiError` raised by `ApiClient.request`
in `api.ts`. -/
theorem request_conflict_is_thrown :
    (request conflictResp).isReturned = false
    ∧ request conflictResp =
        RequestResult.thrown 409 "Conflict: expected_sha does not match" := by
  exact ⟨rfl, rfl⟩

/-- C8 amended: domain-level failures (unsafe scan, invalid syntax) come
back as typed result values, but every HTTP-level failure — including the
fingerprint-mismatch 409 — is thrown by `ApiClient.request` as a typed
`ApiError` carrying the status and a message derived from the error body;
the Safe Push caller catches it and converts it into a typed outcome
(conflict or generic failure) rather than using it for further
propagation. -/
theorem request_failures_thrown_typed {α : Type} (resp : HttpResponse α)
    (h : resp.ok = false) :
    request resp =
      RequestResult.thrown resp.status
        (jsOr resp.errDetail (jsOr resp.errError "Request failed"))
    ∧ ∀ m, classifyError m = PushOutcome.conflict m
        ∨ classifyError m = PushOutcome.failed m := by
  constructor
  · simp [request, h]
  · intro m
    unfold classifyError
    cases hm : hasConflictMarker m with
    | true => left; simp [hm]
    | false => right; simp [hm]

/-- Witness for the amended C8 on a concrete failing response. -/
theorem request_failures_thrown_typed_witness :
    request serverErrResp = RequestResult.thrown 500 "Request failed"
    ∧ (classifyError "boom" = PushOutcome.conflict "boom"
        ∨ classifyError "boom" = PushOutcome.failed "boom") := by
  have h := request_failures_thrown_typed serverErrResp rfl
  exact ⟨h.1, h.2 "boom"⟩

/-- A string all of whose characters are whitespace trims to the empty
string. -/
theorem jsTrim_eq_empty_of_all_ws (s : String)
    (h : ∀ c ∈ s.data, c.isWhitespace = true) : jsTrim s = "" := by
  unfold jsTrim
  have h1 : s.data.dropWhile Char.isWhitespace = [] :=
    List.dropWhile_eq_nil_iff.mpr h
  rw [h1]
  rfl

/-- C9: a blank pasted snippet (empty or whitespace-only) makes the Magic
Paste handler report the empty-snippet error and return at once: no
`smartReplace` request is issued and the editor state — in particular its
content — is exactly unchanged. -/
theorem magicPaste_blank_short_circuit (st : EditorState)
    (env : ApiOutcome SmartReplaceResponse)
    (h : ∀ c ∈ st.magicPasteCode.data, c.isWhitespace = true) :
    handleMagicPaste st env = (st, MagicOutcome.emptyError, []) := by
  have ht := jsTrim_eq_empty_of_all_ws _ h
  simp [handleMagicPaste, ht]

/-- Witness for C9 on a concrete whitespace-only snippet. -/
theorem magicPaste_blank_short_circuit_witness :
    handleMagicPaste exStBlank (ApiOutcome.ok exReplaceResp) =
      (exStBlank, MagicOutcome.emptyError, []) :=
  magicPaste_blank_short_circuit exStBlank (ApiOutcome.ok exReplaceResp) (by decide)

/-- C10: with a pending Magic Paste result, Reject only clears the pending
result — the editor content is byte-identical — while Accept sets the
content to exactly the returned `updated_content`, marks unsaved changes,
closes the dialog, and mutates no stored state: fingerprint, original
content and local backup are unchanged and no backend call is involved. -/
theorem magicPaste_accept_reject (st : EditorState) (r : SmartReplaceResponse)
    (h : st.magicPasteResult = some r) :
    rejectMagicPaste st = { st with magicPasteResult := none }
    ∧ (rejectMagicPaste st).content = st.content
    ∧ acceptMagicPaste st =
        { st with
          content := r.updated_content,
          hasUnsavedChanges := true,
          showMagicPaste := false,
          magicPasteCode := "",
          magicPasteResult := none }
    ∧ (acceptMagicPaste st).sha = st.sha
    ∧ (acceptMagicPaste st).originalContent = st.originalContent
    ∧ (acceptMagicPaste st).backup = st.backup := by
  refine ⟨rfl, rfl, ?_, ?_, ?_, ?_⟩ <;> simp [acceptMagicPaste, h]

/-- Witness for C10 on the sample pending result. -/
theorem magicPaste_accept_reject_witness :
    rejectMagicPaste exStWithResult = { exStWithResult with magicPasteResult := none }
    ∧ (rejectMagicPaste exStWithResult).content = "x = 1\n"
    ∧ acceptMagicPaste exStWithResult =
        { exStWithResult with
          content := "x = 1\n\n# just a comment",
          hasUnsavedChanges := true,
          showMagicPaste := false,
          magicPasteCode := "",
          magicPasteResult := none }
    ∧ (acceptMagicPaste exStWithResult).sha = "abc"
    ∧ (acceptMagicPaste exStWithResult).originalContent = "x = 1\n"
    ∧ (acceptMagicPaste exStWithResult).backup = some "x = 2\n" :=
  magicPaste_accept_reject exStWithResult exReplaceResp rfl

/-- A slice on a half-open range is the drop of an initial segment. -/
theorem sliceAt_eq_take_drop (l : List Char) (s e : Nat) :
    sliceAt l s e = (l.take e).drop s := by
  unfold sliceAt
  exact (List.drop_take e s l).symm

/-- Agreement of initial segments transfers to shorter initial segments. -/
theorem take_agree_mono {xs ys : List Char} {k e : Nat}
    (hke : e ≤ k) (h : xs.take k = ys.take k) : xs.take e = ys.take e := by
  have h1 : (xs.take k).take e = (ys.take k).take e := by rw [h]
  rwa [List.take_take, List.take_take, min_eq_left hke] at h1

/-- C3: applying a Replace plan leaves every byte outside the half-open
target span unchanged — the updated content is exactly the original
prefix before the span, then the re-indented fragment, then the original
suffix from the span's end, so the prefix before `start_offset` and the
suffix from `end_offset` (shifted by the fragment's length) are
byte-identical to the original. -/
theorem apply_replace_nonCorruption (original frag ind : List Char)
    (p : ReplacementPlan) (sp : SourceSpan)
    (hop : p.operation = PlanOp.Replace) (hsp : p.target_span = some sp)
    (h1 : sp.start_offset ≤ sp.end_offset)
    (h2 : sp.end_offset ≤ original.length) :
    (applyPatch original p frag ind).updated_content
      = original.take sp.start_offset ++ reindent ind frag ++
          original.drop sp.end_offset
    ∧ (applyPatch original p frag ind).updated_content.take sp.start_offset
        = original.take sp.start_offset
    ∧ (applyPatch original p frag ind).updated_content.drop
          (sp.start_offset + (reindent ind frag).length)
        = original.drop sp.end_offset := by
  obtain ⟨op, ts, tn⟩ := p
  simp only [] at hop hsp
  subst hop
  subst hsp
  have hU : (applyPatch original ⟨PlanOp.Replace, some sp, tn⟩ frag ind).updated_content
      = original.take sp.start_offset ++ reindent ind frag ++
          original.drop sp.end_offset := rfl
  have hA : (original.take sp.start_offset).length = sp.start_offset := by
    rw [List.length_take]
    omega
  refine ⟨hU, ?_, ?_⟩
  · rw [hU, List.append_assoc]
    exact List.take_left' hA
  · rw [hU]
    have hAR : (original.take sp.start_offset ++ reindent ind frag).length
        = sp.start_offset + (reindent ind frag).length := by
      rw [List.length_append, hA]
    exact List.drop_left' hAR

/-- Witness for C3 on concrete text, span and fragment. -/
theorem apply_replace_nonCorruption_witness :
    (applyPatch exOriginal exPlanC3 exFragC3 []).updated_content.take 2
        = exOriginal.take 2
    ∧ (applyPatch exOriginal exPlanC3 exFragC3 []).updated_content.drop
          (2 + (reindent [] exFragC3).length)
        = exOriginal.drop 5 := by
  have h := apply_replace_nonCorruption exOriginal exFragC3 [] exPlanC3
    ⟨2, 5, 1, 1⟩ rfl rfl (by decide) (by decide)
  exact ⟨h.2.1, h.2.2⟩

/-- C4: with two or more located constructs matching the fragment's name
and kind, the planner returns a Replace plan targeting the last matching
occurrence — whose start offset is strictly greater than that of every
earlier match — and applying that plan leaves the span of every earlier
matching occurrence byte-identical in the updated content. -/
theorem plan_duplicate_last_wins (cs : List Construct) (frag : Fragment)
    (original fragText ind : List Char) (t : Construct)
    (hpair : cs.Pairwise (fun a b => a.span.end_offset ≤ b.span.start_offset))
    (hspan : ∀ c ∈ cs, c.span.start_offset < c.span.end_offset)
    (hwithin : ∀ c ∈ cs, c.span.end_offset ≤ original.length)
    (hlast : (cs.filter (fragMatches frag)).getLast? = some t)
    (hdup : 2 ≤ (cs.filter (fragMatches frag)).length) :
    plan cs frag = ⟨PlanOp.Replace, some t.span, some t.name⟩
    ∧ (∀ c ∈ (cs.filter (fragMatches frag)).dropLast,
        c.span.start_offset < t.span.start_offset)
    ∧ (∀ c ∈ (cs.filter (fragMatches frag)).dropLast,
        sliceAt (applyPatch original (plan cs frag) fragText ind).updated_content
            c.span.start_offset c.span.end_offset
          = sliceAt original c.span.start_offset c.span.end_offset) := by
  have hdecomp : (cs.filter (fragMatches frag)).dropLast ++ [t]
      = cs.filter (fragMatches frag) :=
    List.dropLast_append_getLast? t (Option.mem_def.mpr hlast)
  have hsub : List.Sublist (cs.filter (fragMatches frag)) cs :=
    List.filter_sublist cs
  have hpairms : (cs.filter (fragMatches frag)).Pairwise
      (fun a b => a.span.end_offset ≤ b.span.start_offset) :=
    hpair.sublist hsub
  have hmemms : ∀ c ∈ (cs.filter (fragMatches frag)).dropLast,
      c ∈ cs.filter (fragMatches frag) := by
    intro c hc
    rw [← hdecomp]
    exact List.mem_append_left _ hc
  have htms : t ∈ cs.filter (fragMatches frag) := by
    rw [← hdecomp]
    exact List.mem_append_right _ (by simp)
  have htcs : t ∈ cs := hsub.subset htms
  have hrel : ∀ c ∈ (cs.filter (fragMatches frag)).dropLast,
      c.span.end_offset ≤ t.span.start_offset := by
    intro c hc
    have hp : ((cs.filter (fragMatches frag)).dropLast ++ [t]).Pairwise
        (fun a b => a.span.end_offset ≤ b.span.start_offset) := by
      rw [hdecomp]
      exact hpairms
    exact (List.pairwise_append.mp hp).2.2 c hc t (by simp)
  have hplan : plan cs frag = ⟨PlanOp.Replace, some t.span, some t.name⟩ := by
    cases hdn : frag.declared_name with
    | none =>
      exfalso
      have h0 : cs.filter (fragMatches frag) = [] := by
        apply List.filter_eq_nil_iff.mpr
        intro a _
        simp [fragMatches, hdn]
      rw [h0] at hlast
      simp at hlast
    | some n =>
      simp [plan, hdn, hlast]
  refine ⟨hplan, ?_, ?_⟩
  · intro c hc
    have hr := hrel c hc
    have hs := hspan c (hsub.subset (hmemms c hc))
    omega
  · intro c hc
    have hce : c.span.end_offset ≤ t.span.start_offset := hrel c hc
    rw [hplan]
    have hA : (original.take t.span.start_offset).length
        = t.span.start_offset := by
      rw [List.length_take]
      have h3 := hwithin t htcs
      have h4 := hspan t htcs
      omega
    have htake : (applyPatch original ⟨PlanOp.Replace, some t.span, some t.name⟩
          fragText ind).updated_content.take t.span.start_offset
        = original.take t.span.start_offset := by
      show ((original.take t.span.start_offset ++ reindent ind fragText) ++
          original.drop t.span.end_offset).take t.span.start_offset
        = original.take t.span.start_offset
      rw [List.append_assoc]
      exact List.take_left' hA
    have htakeE := take_agree_mono hce htake
    rw [sliceAt_eq_take_drop, sliceAt_eq_take_drop, htakeE]

/-- Witness for C4: a file with two constructs named `f`; the plan targets
the second and the first occurrence's slice is untouched. -/
theorem plan_duplicate_last_wins_witness :
    plan exCs exFragC4 =
      { operation := PlanOp.Replace, target_span := some ⟨10, 15, 2, 2⟩,
        target_name := some ['f'] }
    ∧ sliceAt (applyPatch exOriginalC4 (plan exCs exFragC4) ['X'] []).updated_content
          0 5
        = sliceAt exOriginalC4 0 5 := by
  have h := plan_duplicate_last_wins exCs exFragC4 exOriginalC4 ['X'] [] exC2
    (by decide) (by decide) (by decide) (by decide) (by decide)
  exact ⟨h.1, h.2.2 exC1 (by decide)⟩

end FlowCMS
